import Mathlib

/-!
Verification of the simple-notary signing pipeline against its
natural-language specification.

The development shallowly embeds the post-notarization core of the
`simple-notary` repository (crates/notary): the JSON data model of
`serde_json::Value` as used by the notary, the redaction subset predicate
(`signing/subset.rs`), the framing codec and wire message schema
(`signing/protocol.rs`), the two-phase signing exchange
(`signing/exchange.rs`), the three encoders (`encoding/json.rs`,
`encoding/abi.rs`, `encoding/eip712.rs`) with real SHA-256 and Keccak-256
implementations, the Ethereum-style recoverable signer
(`signing/ethereum_secp256k1.rs`), and the startup signer/encoder
compatibility check (`main.rs`).

Modelling conventions:
- machine integers are `Nat`/`Int` with explicit reductions (`% 2 ^ 32`,
  `% 2 ^ 64`, `as u8` is `% 256`, `as u16` is `% 2 ^ 16`);
- byte strings are `List Nat` with every element a byte value;
- fallible Rust functions returning `Result` are embedded as `Except String`;
- JSON numbers are modelled as integers (`Int`): every JSON literal the
  notary's data model produces is integer-valued, and `serde_json`'s
  `as_u64` accessor is `none` exactly on the values outside `[0, 2^64)`;
- a wire string that carries JSON text is represented by its parsed JSON
  value where the surrounding code immediately re-parses it.
-/

/-- A JSON value, mirroring `serde_json::Value` as used by the notary.
Objects are ordered association lists (serde's map preserves one canonical
iteration order and cannot hold a key twice; `Json.wf` states that key
uniqueness invariant for this embedding). -/
inductive Json where
  | null
  | bool (b : Bool)
  | num (n : Int)
  | str (s : String)
  | arr (items : List Json)
  | obj (fields : List (String × Json))
deriving Repr, BEq

/-- Lookup among object fields, mirroring `serde_json::Map::get`: the value
under the first matching key. -/
def lookupField : List (String × Json) → String → Option Json
  | [], _ => none
  | (k, v) :: rest, key => if k == key then some v else lookupField rest key

namespace Json

/-- Lookup of an object key, mirroring `serde_json::Value::get(key)`:
the value under the matching key of an object, `none` on any other
value shape. -/
def get? : Json → String → Option Json
  | .obj fields, key => lookupField fields key
  | _, _ => none

/-- Mirror of `serde_json::Value::is_null`. -/
def isNull : Json → Bool
  | .null => true
  | _ => false

/-- Mirror of `serde_json::Value::as_array`. -/
def asArr : Json → Option (List Json)
  | .arr items => some items
  | _ => none

/-- Mirror of `serde_json::Value::as_str`. -/
def asStr : Json → Option String
  | .str s => some s
  | _ => none

/-- Mirror of `serde_json::Value::as_u64`: the number when it is an
unsigned 64-bit integer, `none` otherwise (negative values, values of
other JSON types). -/
def asU64 : Json → Option Nat
  | .num n => if 0 ≤ n ∧ n < 2 ^ 64 then some n.toNat else none
  | _ => none

end Json

/-- Hex digit character for a value below 16 (lowercase, as `serde_json`
and the `hex` crate emit). -/
def hexDigit (n : Nat) : Char :=
  if n < 10 then Char.ofNat (48 + n) else Char.ofNat (87 + n)

/-- Escaping of one character inside a JSON string literal, as
`serde_json`'s compact serializer emits it: `"` and `\` are escaped,
control characters below 0x20 use the short escapes `\b \t \n \f \r`
or `\u00XX`, everything else is passed through. -/
def jsonEscapeChar (c : Char) : String :=
  if c = '"' then "\\\""
  else if c = '\\' then "\\\\"
  else if c.toNat = 8 then "\\b"
  else if c.toNat = 9 then "\\t"
  else if c.toNat = 10 then "\\n"
  else if c.toNat = 12 then "\\f"
  else if c.toNat = 13 then "\\r"
  else if c.toNat < 32 then
    String.mk ['\\', 'u', '0', '0', hexDigit (c.toNat / 16), hexDigit (c.toNat % 16)]
  else String.mk [c]

/-- Serialization of a JSON string literal (quotes plus escaped contents). -/
def jsonSerializeString (s : String) : String :=
  "\"" ++ String.join (s.toList.map jsonEscapeChar) ++ "\""

mutual
/-- Compact JSON serialization, mirroring `serde_json::to_string` on a
`Value`: `null`, `true`/`false`, decimal integers, escaped strings,
`[..]`/`\x7b..\x7d` with comma separators and object fields in map
iteration order. This serialization never fails on a `Value`. -/
def Json.serialize : Json → String
  | .null => "null"
  | .bool true => "true"
  | .bool false => "false"
  | .num n => toString n
  | .str s => jsonSerializeString s
  | .arr items => "[" ++ serializeElems items ++ "]"
  | .obj fields => "\x7b" ++ serializeFields fields ++ "\x7d"

/-- Comma-joined serialization of array elements. -/
def serializeElems : List Json → String
  | [] => ""
  | [x] => Json.serialize x
  | x :: y :: rest => Json.serialize x ++ "," ++ serializeElems (y :: rest)

/-- Comma-joined serialization of object members (`"key":value`). -/
def serializeFields : List (String × Json) → String
  | [] => ""
  | [(k, v)] => jsonSerializeString k ++ ":" ++ Json.serialize v
  | (k, v) :: m :: rest =>
      jsonSerializeString k ++ ":" ++ Json.serialize v ++ "," ++ serializeFields (m :: rest)
end

mutual
/-- Translation of `is_json_subset` from `signing/subset.rs`: `subset` is a
valid filtered view of `superset`. Null replaces anything; scalars must
match exactly; arrays must have identical length with element-wise subset;
every object key of the subset must exist in the superset with a valid
sub-value; any other shape pairing is rejected. -/
def is_json_subset : Json → Json → Bool
  | .null, _ => true
  | .bool a, .bool b => a == b
  | .num a, .num b => a == b
  | .str a, .str b => a == b
  | .arr a, .arr b => subsetElems a b
  | .obj a, .obj b => subsetFields b a
  | _, _ => false

/-- Element-wise subset check of two arrays, including the length check
(`a.len() == b.len()` with zipped `all` in the source). -/
def subsetElems : List Json → List Json → Bool
  | [], [] => true
  | s :: ss, p :: ps => is_json_subset s p && subsetElems ss ps
  | _, _ => false

/-- Member-wise subset check of object fields against a fixed superset
object `b`: every subset key must be found in `b` (via `Value::get`) with
a valid sub-value. -/
def subsetFields (b : List (String × Json)) : List (String × Json) → Bool
  | [] => true
  | (key, val) :: rest =>
      (match lookupField b key with
       | some supVal => is_json_subset val supVal
       | none => false) && subsetFields b rest
end

/-- Membership of a key among object fields. -/
def keyMem : List (String × Json) → String → Bool
  | [], _ => false
  | (k, _) :: rest, key => k == key || keyMem rest key

/-- Object fields carry pairwise-distinct keys. -/
def nodupKeys : List (String × Json) → Bool
  | [] => true
  | (k, _) :: rest => !(keyMem rest k) && nodupKeys rest

mutual
/-- Well-formedness of a `Json` value as a `serde_json::Value` image:
object keys are pairwise distinct at every level (serde's map type cannot
represent a duplicate key). -/
def Json.wf : Json → Bool
  | .arr items => wfElems items
  | .obj fields => nodupKeys fields && wfFields fields
  | _ => true

/-- All elements of an array are well-formed. -/
def wfElems : List Json → Bool
  | [] => true
  | x :: xs => Json.wf x && wfElems xs

/-- All field values of an object are well-formed. -/
def wfFields : List (String × Json) → Bool
  | [] => true
  | (_, v) :: xs => Json.wf v && wfFields xs
end

/-! ### Byte and word utilities -/

/-- Big-endian byte decomposition of a natural number into `width` bytes
(the value is taken modulo `256 ^ width`). -/
def beBytes (width n : Nat) : List Nat :=
  (List.range width).map fun i => n / 256 ^ (width - 1 - i) % 256

/-- Little-endian byte decomposition of a natural number into `width` bytes. -/
def leBytes (width n : Nat) : List Nat :=
  (List.range width).map fun i => n / 256 ^ i % 256

/-- Big-endian recomposition of bytes into a natural number. -/
def beToNat (bytes : List Nat) : Nat := bytes.foldl (fun acc b => acc * 256 + b) 0

/-- Little-endian recomposition of bytes into a natural number. -/
def leToNat (bytes : List Nat) : Nat := bytes.foldr (fun b acc => acc * 256 + b) 0

@[simp] theorem beBytes_length (width n : Nat) : (beBytes width n).length = width := by
  simp [beBytes]

@[simp] theorem leBytes_length (width n : Nat) : (leBytes width n).length = width := by
  simp [leBytes]

/-- Split of a list into consecutive chunks of `szMinusOne + 1` elements
(the last chunk may be shorter). The size is passed minus one so the
recursion is well-founded without a positivity side condition. -/
def chunksOf (szMinusOne : Nat) : List α → List (List α)
  | [] => []
  | x :: xs => (x :: xs).take (szMinusOne + 1) :: chunksOf szMinusOne (xs.drop szMinusOne)
termination_by l => l.length
decreasing_by
  simp only [List.length_drop, List.length_cons]
  omega

/-! ### SHA-256 (the `sha2` crate's `Sha256::digest`) -/

/-- Reduction to a 32-bit word. -/
def w32 (n : Nat) : Nat := n % 2 ^ 32

/-- Right rotation of a 32-bit word by `k` bits. -/
def rotr32 (x k : Nat) : Nat := w32 (x / 2 ^ k + x % 2 ^ k * 2 ^ (32 - k))

/-- Logical right shift. -/
def shr32 (x k : Nat) : Nat := x / 2 ^ k

/-- Bitwise complement of a 32-bit word. -/
def not32 (x : Nat) : Nat := Nat.xor x (2 ^ 32 - 1)

/-- The SHA-256 round constants. -/
def sha256K : List Nat :=
  [0x428A2F98, 0x71374491, 0xB5C0FBCF, 0xE9B5DBA5, 0x3956C25B, 0x59F111F1, 0x923F82A4, 0xAB1C5ED5,
   0xD807AA98, 0x12835B01, 0x243185BE, 0x550C7DC3, 0x72BE5D74, 0x80DEB1FE, 0x9BDC06A7, 0xC19BF174,
   0xE49B69C1, 0xEFBE4786, 0x0FC19DC6, 0x240CA1CC, 0x2DE92C6F, 0x4A7484AA, 0x5CB0A9DC, 0x76F988DA,
   0x983E5152, 0xA831C66D, 0xB00327C8, 0xBF597FC7, 0xC6E00BF3, 0xD5A79147, 0x06CA6351, 0x14292967,
   0x27B70A85, 0x2E1B2138, 0x4D2C6DFC, 0x53380D13, 0x650A7354, 0x766A0ABB, 0x81C2C92E, 0x92722C85,
   0xA2BFE8A1, 0xA81A664B, 0xC24B8B70, 0xC76C51A3, 0xD192E819, 0xD6990624, 0xF40E3585, 0x106AA070,
   0x19A4C116, 0x1E376C08, 0x2748774C, 0x34B0BCB5, 0x391C0CB3, 0x4ED8AA4A, 0x5B9CCA4F, 0x682E6FF3,
   0x748F82EE, 0x78A5636F, 0x84C87814, 0x8CC70208, 0x90BEFFFA, 0xA4506CEB, 0xBEF9A3F7, 0xC67178F2]

/-- Working state of the SHA-256 compression function. -/
structure Sha256St where
  a : Nat
  b : Nat
  c : Nat
  d : Nat
  e : Nat
  f : Nat
  g : Nat
  h : Nat

/-- The SHA-256 initial hash state. -/
def sha256H0 : Sha256St :=
  ⟨0x6A09E667, 0xBB67AE85, 0x3C6EF372, 0xA54FF53A, 0x510E527F, 0x9B05688C, 0x1F83D9AB, 0x5BE0CD19⟩

/-- One SHA-256 compression round; `kw` is the round constant plus the
scheduled message word, already combined. -/
def sha256Round (st : Sha256St) (kw : Nat) : Sha256St :=
  let S1 := Nat.xor (rotr32 st.e 6) (Nat.xor (rotr32 st.e 11) (rotr32 st.e 25))
  let ch := Nat.xor (Nat.land st.e st.f) (Nat.land (not32 st.e) st.g)
  let temp1 := w32 (st.h + S1 + ch + kw)
  let S0 := Nat.xor (rotr32 st.a 2) (Nat.xor (rotr32 st.a 13) (rotr32 st.a 22))
  let maj := Nat.xor (Nat.land st.a st.b) (Nat.xor (Nat.land st.a st.c) (Nat.land st.b st.c))
  let temp2 := w32 (S0 + maj)
  ⟨w32 (temp1 + temp2), st.a, st.b, st.c, w32 (st.d + temp1), st.e, st.f, st.g⟩

/-- Message schedule: the 16 block words extended to 64 words. -/
def sha256Schedule (block : List Nat) : List Nat :=
  let w0 := (List.range 16).map fun i => beToNat ((block.drop (4 * i)).take 4)
  (List.range 48).foldl
    (fun w j =>
      let i := j + 16
      let x15 := w.getD (i - 15) 0
      let x2 := w.getD (i - 2) 0
      let s0 := Nat.xor (rotr32 x15 7) (Nat.xor (rotr32 x15 18) (shr32 x15 3))
      let s1 := Nat.xor (rotr32 x2 17) (Nat.xor (rotr32 x2 19) (shr32 x2 10))
      w ++ [w32 (w.getD (i - 16) 0 + s0 + w.getD (i - 7) 0 + s1)])
    w0

/-- Compression of one 64-byte block into the hash state. -/
def sha256Compress (h0 : Sha256St) (block : List Nat) : Sha256St :=
  let kw := (sha256K.zip (sha256Schedule block)).map fun p => w32 (p.1 + p.2)
  let st := kw.foldl sha256Round h0
  ⟨w32 (h0.a + st.a), w32 (h0.b + st.b), w32 (h0.c + st.c), w32 (h0.d + st.d),
   w32 (h0.e + st.e), w32 (h0.f + st.f), w32 (h0.g + st.g), w32 (h0.h + st.h)⟩

/-- SHA-256 padding: a 0x80 byte, zeros, and the 8-byte big-endian bit length,
bringing the length to a multiple of 64. -/
def sha256Pad (msg : List Nat) : List Nat :=
  msg ++ (0x80 :: (List.replicate ((64 - (msg.length + 9) % 64) % 64) 0 ++ beBytes 8 (msg.length * 8)))

/-- Serialization of the final hash state as 32 big-endian bytes. -/
def sha256StateBytes (st : Sha256St) : List Nat :=
  beBytes 4 st.a ++ beBytes 4 st.b ++ beBytes 4 st.c ++ beBytes 4 st.d ++
  beBytes 4 st.e ++ beBytes 4 st.f ++ beBytes 4 st.g ++ beBytes 4 st.h

/-- SHA-256 of a byte string (as the `sha2` crate's `Sha256::digest`). -/
def sha256 (msg : List Nat) : List Nat :=
  sha256StateBytes ((chunksOf 63 (sha256Pad msg)).foldl sha256Compress sha256H0)

@[simp] theorem sha256_length (msg : List Nat) : (sha256 msg).length = 32 := by
  simp [sha256, sha256StateBytes]

/-! ### Keccak-256 (`alloy_primitives::keccak256`) -/

/-- Reduction to a 64-bit lane. -/
def w64 (n : Nat) : Nat := n % 2 ^ 64

/-- Bitwise complement of a 64-bit lane. -/
def not64 (x : Nat) : Nat := Nat.xor x (2 ^ 64 - 1)

/-- Left rotation of a 64-bit lane by `k ≤ 64` bits. -/
def rotl64 (x k : Nat) : Nat := w64 (x % 2 ^ (64 - k) * 2 ^ k + x / 2 ^ (64 - k))

/-- Keccak rho rotation offsets, indexed by lane `x + 5 * y`. -/
def keccakRotOff : List Nat :=
  [0, 1, 62, 28, 27] ++ [36, 44, 6, 55, 20] ++ [3, 10, 43, 25, 39]
    ++ [41, 45, 15, 21, 8] ++ [18, 2, 61, 56, 14]

/-- Keccak iota round constants. -/
def keccakRC : List Nat :=
  [0x1, 0x8082, 0x800000000000808A, 0x8000000080008000, 0x808B, 0x80000001]
    ++ [0x8000000080008081, 0x8000000000008009, 0x8A, 0x88, 0x80008009, 0x8000000A]
    ++ [0x8000808B, 0x800000000000008B, 0x8000000000008089, 0x8000000000008003]
    ++ [0x8000000000008002, 0x8000000000000080, 0x800A, 0x800000008000000A]
    ++ [0x8000000080008081, 0x8000000000008080, 0x80000001, 0x8000000080008008]

/-- Keccak theta step on the 25-lane state. -/
def keccakTheta (A : List Nat) : List Nat :=
  let C := (List.range 5).map fun x =>
    Nat.xor (A.getD x 0) (Nat.xor (A.getD (x + 5) 0)
      (Nat.xor (A.getD (x + 10) 0) (Nat.xor (A.getD (x + 15) 0) (A.getD (x + 20) 0))))
  let D := (List.range 5).map fun x =>
    Nat.xor (C.getD ((x + 4) % 5) 0) (rotl64 (C.getD ((x + 1) % 5) 0) 1)
  (List.range 25).map fun i => Nat.xor (A.getD i 0) (D.getD (i % 5) 0)

/-- Keccak rho and pi steps: rotate each lane and permute positions. -/
def keccakRhoPi (A : List Nat) : List Nat :=
  (List.range 25).foldl
    (fun B i =>
      let x := i % 5
      let y := i / 5
      let j := y + 5 * ((2 * x + 3 * y) % 5)
      B.set j (rotl64 (A.getD i 0) (keccakRotOff.getD i 0)))
    (List.replicate 25 0)

/-- Keccak chi step. -/
def keccakChi (B : List Nat) : List Nat :=
  (List.range 25).map fun i =>
    let x := i % 5
    let y := i / 5
    Nat.xor (B.getD i 0) (Nat.land (not64 (B.getD ((x + 1) % 5 + 5 * y) 0)) (B.getD ((x + 2) % 5 + 5 * y) 0))

/-- One Keccak-f[1600] round. -/
def keccakRound (A : List Nat) (rc : Nat) : List Nat :=
  let C := keccakChi (keccakRhoPi (keccakTheta A))
  C.set 0 (Nat.xor (C.getD 0 0) rc)

/-- The Keccak-f[1600] permutation (24 rounds). -/
def keccakF (A : List Nat) : List Nat := keccakRC.foldl keccakRound A

/-- Keccak multi-rate padding for rate 136 (the original Keccak 0x01 domain
byte, as Ethereum's keccak256 uses, not SHA-3's 0x06). -/
def keccakPad (msg : List Nat) : List Nat :=
  let q := 136 - msg.length % 136
  if q = 1 then msg ++ [0x81]
  else msg ++ (0x01 :: (List.replicate (q - 2) 0 ++ [0x80]))

/-- Absorption of one 136-byte block: xor the 17 little-endian lanes into
the state and permute. -/
def keccakAbsorbBlock (A : List Nat) (block : List Nat) : List Nat :=
  let lanes := (List.range 17).map fun i => leToNat ((block.drop (8 * i)).take 8)
  keccakF ((List.range 25).map fun i =>
    if i < 17 then Nat.xor (A.getD i 0) (lanes.getD i 0) else A.getD i 0)

/-- Keccak-256 of a byte string (as `alloy_primitives::keccak256`): absorb
all padded blocks and squeeze the first 32 bytes. -/
def keccak256 (msg : List Nat) : List Nat :=
  let A := (chunksOf 135 (keccakPad msg)).foldl keccakAbsorbBlock (List.replicate 25 0)
  leBytes 8 (A.getD 0 0) ++ leBytes 8 (A.getD 1 0) ++ leBytes 8 (A.getD 2 0) ++ leBytes 8 (A.getD 3 0)

@[simp] theorem keccak256_length (msg : List Nat) : (keccak256 msg).length = 32 := by
  simp [keccak256]

/-! ### UTF-8 encoding of Rust `String` data -/

/-- UTF-8 encoding of one character. -/
def utf8EncodeChar (c : Char) : List Nat :=
  let n := c.toNat
  if n < 0x80 then [n]
  else if n < 0x800 then [0xc0 + n / 64, 0x80 + n % 64]
  else if n < 0x10000 then [0xe0 + n / 4096, 0x80 + n / 64 % 64, 0x80 + n % 64]
  else [0xf0 + n / 262144, 0x80 + n / 4096 % 64, 0x80 + n / 64 % 64, 0x80 + n % 64]

/-- UTF-8 bytes of a string (Rust's `String::into_bytes` / `as_bytes`). -/
def utf8Encode (s : String) : List Nat := (s.toList.map utf8EncodeChar).flatten

/-! ### Solidity ABI encoding (`alloy_sol_types`), as used by `encoding/abi.rs` -/

/-- An ABI value: unsigned words (covering `bool`, `uint8`, `uint16` by their
word value), dynamic byte strings (covering `string` and `bytes`), tuples
(struct values) and dynamic arrays. -/
inductive AbiValue where
  | uint (n : Nat)
  | bytes (bs : List Nat)
  | tuple (components : List AbiValue)
  | array (elems : List AbiValue)

mutual
/-- Dynamicity of an ABI type per the Solidity ABI: `bytes`/`string` and
dynamic arrays are dynamic, a tuple is dynamic when a component is. -/
def AbiValue.isDynamic : AbiValue → Bool
  | .uint _ => false
  | .bytes _ => true
  | .array _ => true
  | .tuple comps => dynAny comps

/-- Any component dynamic. -/
def dynAny : List AbiValue → Bool
  | [] => false
  | v :: vs => AbiValue.isDynamic v || dynAny vs
end

/-- Right zero-padding of a byte string to a multiple of 32 bytes. -/
def padRight32 (bs : List Nat) : List Nat :=
  bs ++ List.replicate ((32 - bs.length % 32) % 32) 0

/-- One 32-byte big-endian ABI word. -/
def abiWord (n : Nat) : List Nat := beBytes 32 n

/-- Head/tail encoding of an ABI component sequence (Solidity ABI `enc` of a
tuple body or of a dynamic array's elements). Each part comes paired with
its already-computed encoding; static parts lie in the head, dynamic parts
contribute a 32-byte offset (relative to the sequence start) and their
encoding in the tail. -/
def seqEnc (parts : List (AbiValue × List Nat)) : List Nat :=
  let headLen := (parts.map fun p => if p.1.isDynamic then 32 else p.2.length).sum
  let folded := parts.foldl
    (fun (acc : List Nat × List Nat × Nat) p =>
      let (hs, ts, off) := acc
      if p.1.isDynamic then (hs ++ abiWord (headLen + off), ts ++ p.2, off + p.2.length)
      else (hs ++ p.2, ts, off))
    ([], [], 0)
  folded.1 ++ folded.2.1

mutual
/-- Solidity ABI encoding of an ABI value body: a word for `uint`, length
word plus padded contents for `bytes`, head/tail sequence for tuples, and
length word plus head/tail sequence for dynamic arrays. -/
def AbiValue.enc : AbiValue → List Nat
  | .uint n => abiWord n
  | .bytes bs => abiWord bs.length ++ padRight32 bs
  | .tuple comps => seqEnc (encPairs comps)
  | .array elems => abiWord elems.length ++ seqEnc (encPairs elems)

/-- Pairing of each component with its encoding. -/
def encPairs : List AbiValue → List (AbiValue × List Nat)
  | [] => []
  | v :: vs => (v, AbiValue.enc v) :: encPairs vs
end

/-! ### The ABI attestation structs and context parsing (`encoding/abi.rs`) -/

/-- Body encoding discriminator `BODY_NONE`. -/
def BODY_NONE : Nat := 0

/-- Body encoding discriminator `BODY_RAW`. -/
def BODY_RAW : Nat := 1

/-- Body encoding discriminator `BODY_JSON_KV`. -/
def BODY_JSON_KV : Nat := 2

/-- The `Header` Solidity struct of `encoding/abi.rs`. -/
structure Header where
  name : String
  value : String
deriving Repr, BEq, DecidableEq

/-- The `Request` Solidity struct of `encoding/abi.rs`. -/
structure Request where
  present : Bool
  method : String
  target : String
  headers : List Header
  body : List Nat
  bodyEncoding : Nat
deriving Repr, BEq

/-- The `Response` Solidity struct of `encoding/abi.rs`. -/
structure Response where
  present : Bool
  status : Nat
  headers : List Header
  body : List Nat
  bodyEncoding : Nat
deriving Repr, BEq

/-- The `Attestation` Solidity struct of `encoding/abi.rs`. -/
structure Attestation where
  requests : List Request
  responses : List Response
deriving Repr, BEq

/-- ABI value of a `Header` struct. -/
def Header.toAbi (h : Header) : AbiValue :=
  .tuple [.bytes (utf8Encode h.name), .bytes (utf8Encode h.value)]

/-- ABI value of a `Request` struct. -/
def Request.toAbi (r : Request) : AbiValue :=
  .tuple [.uint (if r.present then 1 else 0), .bytes (utf8Encode r.method),
          .bytes (utf8Encode r.target), .array (r.headers.map Header.toAbi),
          .bytes r.body, .uint r.bodyEncoding]

/-- ABI value of a `Response` struct. -/
def Response.toAbi (r : Response) : AbiValue :=
  .tuple [.uint (if r.present then 1 else 0), .uint r.status,
          .array (r.headers.map Header.toAbi), .bytes r.body, .uint r.bodyEncoding]

/-- Mirror of `attestation.abi_encode()` (`alloy_sol_types::SolValue`): the
Solidity ABI encoding of the `Attestation` struct as a tuple of its two
dynamic arrays. -/
def abi_encode (a : Attestation) : List Nat :=
  AbiValue.enc (.tuple [.array (a.requests.map Request.toAbi),
                        .array (a.responses.map Response.toAbi)])

/-- Translation of `encode_json_body` from `encoding/abi.rs`: a top-level
object becomes `abi_encode((string[] keys, string[] values))` with each
value re-serialized as a JSON string (`BODY_JSON_KV`); any other JSON value
falls back to its raw UTF-8 JSON text (`BODY_RAW`). -/
def encode_json_body (jsonVal : Json) : Except String (List Nat × Nat) :=
  match jsonVal with
  | .obj fields =>
      let keys := fields.map fun kv => kv.1
      let values := fields.map fun kv => Json.serialize kv.2
      .ok (AbiValue.enc (.tuple [.array (keys.map fun k => .bytes (utf8Encode k)),
                                 .array (values.map fun v => .bytes (utf8Encode v))]),
           BODY_JSON_KV)
  | _ => .ok (utf8Encode (Json.serialize jsonVal), BODY_RAW)

/-- Translation of `parse_body` from `encoding/abi.rs`: absent or null
bodies and unrecognized shapes give `([], BODY_NONE)`; a `Json` member is
encoded by `encode_json_body`; an `Unknown` member holding an array keeps
the elements readable as `u64`, cast to bytes (`% 256`), as `BODY_RAW`. -/
def parse_body : Option Json → Except String (List Nat × Nat)
  | none => .ok ([], BODY_NONE)
  | some bodyVal =>
    if bodyVal.isNull then .ok ([], BODY_NONE)
    else
      match bodyVal.get? "Json" with
      | some jsonVal => encode_json_body jsonVal
      | none =>
        match bodyVal.get? "Unknown" with
        | some unknownVal =>
          match unknownVal.asArr with
          | some byteArr =>
              .ok (byteArr.filterMap (fun v => (Json.asU64 v).map fun n => n % 256), BODY_RAW)
          | none => .ok ([], BODY_NONE)
        | none => .ok ([], BODY_NONE)

/-- One element of the `parse_headers` map of `encoding/abi.rs`: null gives
the empty pair; an array takes the string values of its first two elements
(empty string when missing or non-string); anything else gives the empty
pair. -/
def parse_header_elem (header : Json) : Header :=
  if header.isNull then ⟨"", ""⟩
  else
    match header.asArr with
    | some pair => ⟨(pair[0]?.bind Json.asStr).getD "", (pair[1]?.bind Json.asStr).getD ""⟩
    | none => ⟨"", ""⟩

/-- Translation of `parse_headers` from `encoding/abi.rs`. -/
def parse_headers (val : Option Json) : List Header :=
  match val.bind Json.asArr with
  | none => []
  | some arr => arr.map parse_header_elem

/-- Translation of `parse_request` from `encoding/abi.rs`. -/
def parse_request (val : Json) : Except String Request :=
  if val.isNull then .ok ⟨false, "", "", [], [], BODY_NONE⟩
  else
    match parse_body (val.get? "body") with
    | .error e => .error e
    | .ok bodyPair =>
      .ok ⟨true,
           ((val.get? "method").bind Json.asStr).getD "",
           ((val.get? "target").bind Json.asStr).getD "",
           parse_headers (val.get? "headers"),
           bodyPair.1, bodyPair.2⟩

/-- Translation of `parse_response` from `encoding/abi.rs` (`status` is the
`as_u64` value cast `as u16`). -/
def parse_response (val : Json) : Except String Response :=
  if val.isNull then .ok ⟨false, 0, [], [], BODY_NONE⟩
  else
    match parse_body (val.get? "body") with
    | .error e => .error e
    | .ok bodyPair =>
      .ok ⟨true,
           ((val.get? "status").bind Json.asU64).getD 0 % 2 ^ 16,
           parse_headers (val.get? "headers"),
           bodyPair.1, bodyPair.2⟩

/-- Mirror of `collect::<Result<Vec<_>>>()` over a parsing function: the
first error aborts, otherwise all results are collected in order. -/
def collectExcept (f : α → Except ε β) : List α → Except ε (List β)
  | [] => .ok []
  | x :: xs =>
    match f x with
    | .error e => .error e
    | .ok y =>
      match collectExcept f xs with
      | .error e => .error e
      | .ok ys => .ok (y :: ys)

/-- Translation of `parse_attestation` from `encoding/abi.rs`: the
`requests`/`responses` members (empty when missing or non-array) parsed
element-wise. -/
def parse_attestation (context : Json) : Except String Attestation :=
  let requests_val := ((context.get? "requests").bind Json.asArr).getD []
  let responses_val := ((context.get? "responses").bind Json.asArr).getD []
  match collectExcept parse_request requests_val with
  | .error e => .error e
  | .ok requests =>
    match collectExcept parse_response responses_val with
    | .error e => .error e
    | .ok responses => .ok ⟨requests, responses⟩

/-! ### The three encoders -/

/-- The `(data, digest)` pair produced by an encoder (`encoding/mod.rs`). -/
structure EncodedContext where
  data : List Nat
  digest : List Nat
deriving Repr, BEq

/-- Translation of `JsonEncoder::encode` from `encoding/json.rs`: UTF-8
JSON bytes with SHA-256 digest. -/
def JsonEncoder.encode (context : Json) : Except String EncodedContext :=
  let json_bytes := utf8Encode (Json.serialize context)
  .ok ⟨json_bytes, sha256 json_bytes⟩

/-- The JSON encoder's `name()`. -/
def JsonEncoder.name : String := "json"

/-- Translation of `AbiEncoder::encode` from `encoding/abi.rs`: ABI-encoded
attestation with keccak256 digest. -/
def AbiEncoder.encode (context : Json) : Except String EncodedContext :=
  match parse_attestation context with
  | .error e => .error e
  | .ok attestation =>
    let data := abi_encode attestation
    .ok ⟨data, keccak256 data⟩

/-- The ABI encoder's `name()`. -/
def AbiEncoder.name : String := "abi"

/-! ### EIP-712 typed-data hashing (`encoding/eip712.rs`) -/

/-- The EIP-712 domain of `Eip712Encoder` (name, version, chainId and a
20-byte verifying contract address). -/
structure Eip712Domain where
  name : String
  version : String
  chainId : Nat
  verifyingContract : List Nat
deriving Repr, BEq

/-- EIP-712 type description of `Header`. -/
def eip712TypeHeader : String := "Header(string name,string value)"

/-- EIP-712 type description of `Request`. -/
def eip712TypeRequest : String :=
  "Request(bool present,string method,string target,Header[] headers,bytes body,uint8 bodyEncoding)"

/-- EIP-712 type description of `Response`. -/
def eip712TypeResponse : String :=
  "Response(bool present,uint16 status,Header[] headers,bytes body,uint8 bodyEncoding)"

/-- EIP-712 type description of `Attestation`. -/
def eip712TypeAttestation : String :=
  "Attestation(Request[] requests,Response[] responses)"

/-- EIP-712 `hashStruct` of a `Header`. -/
def hashStructHeader (h : Header) : List Nat :=
  keccak256 (keccak256 (utf8Encode eip712TypeHeader)
    ++ keccak256 (utf8Encode h.name) ++ keccak256 (utf8Encode h.value))

/-- EIP-712 `hashStruct` of a `Request` (referenced types follow the
primary type in the type hash preimage). -/
def hashStructRequest (r : Request) : List Nat :=
  keccak256 (keccak256 (utf8Encode (eip712TypeRequest ++ eip712TypeHeader))
    ++ abiWord (if r.present then 1 else 0)
    ++ keccak256 (utf8Encode r.method)
    ++ keccak256 (utf8Encode r.target)
    ++ keccak256 ((r.headers.map hashStructHeader).flatten)
    ++ keccak256 r.body
    ++ abiWord r.bodyEncoding)

/-- EIP-712 `hashStruct` of a `Response`. -/
def hashStructResponse (r : Response) : List Nat :=
  keccak256 (keccak256 (utf8Encode (eip712TypeResponse ++ eip712TypeHeader))
    ++ abiWord (if r.present then 1 else 0)
    ++ abiWord r.status
    ++ keccak256 ((r.headers.map hashStructHeader).flatten)
    ++ keccak256 r.body
    ++ abiWord r.bodyEncoding)

/-- EIP-712 `hashStruct` of an `Attestation` (referenced types sorted
alphabetically after the primary type). -/
def hashStructAttestation (a : Attestation) : List Nat :=
  keccak256 (keccak256 (utf8Encode (eip712TypeAttestation
      ++ eip712TypeHeader ++ eip712TypeRequest ++ eip712TypeResponse))
    ++ keccak256 ((a.requests.map hashStructRequest).flatten)
    ++ keccak256 ((a.responses.map hashStructResponse).flatten))

/-- EIP-712 domain separator for the four-field domain used by
`Eip712Encoder::new`. -/
def eip712DomainSeparator (d : Eip712Domain) : List Nat :=
  keccak256 (keccak256 (utf8Encode
      "EIP712Domain(string name,string version,uint256 chainId,address verifyingContract)")
    ++ keccak256 (utf8Encode d.name) ++ keccak256 (utf8Encode d.version)
    ++ abiWord d.chainId ++ abiWord (beToNat d.verifyingContract))

/-- Mirror of `attestation.eip712_signing_hash(&domain)`:
`keccak256(0x19 0x01 ‖ domainSeparator ‖ hashStruct(attestation))`. -/
def eip712_signing_hash (d : Eip712Domain) (a : Attestation) : List Nat :=
  keccak256 (0x19 :: 0x01 :: (eip712DomainSeparator d ++ hashStructAttestation a))

/-- Translation of `Eip712Encoder::encode` from `encoding/eip712.rs`: the
same ABI-encoded data as `AbiEncoder`, with the EIP-712 signing hash as
digest. -/
def Eip712Encoder.encode (domain : Eip712Domain) (context : Json) : Except String EncodedContext :=
  match parse_attestation context with
  | .error e => .error e
  | .ok attestation => .ok ⟨abi_encode attestation, eip712_signing_hash domain attestation⟩

/-- The EIP-712 encoder's `name()`. -/
def Eip712Encoder.name : String := "eip712"

/-! ### Framing codec and wire message schema (`signing/protocol.rs`) -/

/-- The frame size limit `MAX_MESSAGE_SIZE` (10 MiB). -/
def MAX_MESSAGE_SIZE : Nat := 10 * 1024 * 1024

/-- Mirror of `u32::from_be_bytes` on four bytes. -/
def u32FromBeBytes (b0 b1 b2 b3 : Nat) : Nat :=
  ((b0 * 256 + b1) * 256 + b2) * 256 + b3

/-- Translation of `read_message` from `signing/protocol.rs` over a pure
byte stream: read the 4-byte big-endian length prefix, reject a length
above `MAX_MESSAGE_SIZE` before reading any payload byte, then read the
payload and hand it to the JSON deserializer `decode`. Returns the decoded
message together with the unread remainder of the stream. -/
def read_message (decode : List Nat → Except String α) : List Nat → Except String (α × List Nat)
  | b0 :: b1 :: b2 :: b3 :: rest =>
    let len := u32FromBeBytes b0 b1 b2 b3
    if len > MAX_MESSAGE_SIZE then .error "message too large"
    else if rest.length < len then .error "reading payload"
    else
      match decode (rest.take len) with
      | .error e => .error e
      | .ok msg => .ok (msg, rest.drop len)
  | _ => .error "reading length prefix"

/-- The prover-to-notary message enum exactly as DECLARED in
`signing/protocol.rs`: its only variant is `SignRequest`. -/
inductive ProverMessageDecl where
  | signRequest
deriving Repr, BEq

/-- Mirror of serde's internally-tagged (`tag = "type"`) deserialization
for the `ProverMessage` enum as declared in `signing/protocol.rs`: a JSON
payload whose `type` member is the string `SignRequest` deserializes to
that variant; any other tag (such as `SignFiltered`) is an unknown-variant
error, modelled as `none`. -/
def proverMessageDecl_fromJson (v : Json) : Option ProverMessageDecl :=
  match v.get? "type" with
  | some (.str "SignRequest") => some .signRequest
  | _ => none

/-! ### The signing exchange (`signing/exchange.rs`) -/

/-- The prover-to-notary messages as `run_signing_exchange` (and the
repository's integration tests) consume them: `SignRequest` or
`SignFiltered` carrying the filtered context JSON (represented by its
parsed value; the exchange re-parses the wire string immediately). -/
inductive ProverMessage where
  | signRequest
  | signFiltered (data : Json)

/-- The notary-to-prover messages written by `run_signing_exchange`:
the initial `Context` and the final `Signed`. -/
inductive NotaryMessage where
  | context (data : String)
  | signed (data : String) (format : String) (signature : String)
      (public_key : String) (algorithm : String)
deriving Repr, BEq

/-- Lowercase hex encoding of a byte string (the `hex` crate's `encode`). -/
def hexEncode (bytes : List Nat) : String :=
  String.mk ((bytes.map fun b => [hexDigit (b / 16 % 16), hexDigit (b % 16)]).flatten)

/-- Decoding of UTF-8 bytes into characters (Rust's `String::from_utf8`):
`none` on any invalid sequence (bad continuation byte, overlong form,
surrogate, or out-of-range code point). -/
def utf8Decode : List Nat → Option (List Char)
  | [] => some []
  | b :: rest =>
    if b < 0x80 then (utf8Decode rest).map fun cs => Char.ofNat b :: cs
    else if b < 0xc2 then none
    else if b < 0xe0 then
      match rest with
      | b1 :: rest1 =>
        if 0x80 ≤ b1 ∧ b1 < 0xc0 then
          (utf8Decode rest1).map fun cs => Char.ofNat ((b - 0xc0) * 64 + (b1 - 0x80)) :: cs
        else none
      | _ => none
    else if b < 0xf0 then
      match rest with
      | b1 :: b2 :: rest2 =>
        if (0x80 ≤ b1 ∧ b1 < 0xc0) ∧ (0x80 ≤ b2 ∧ b2 < 0xc0) then
          let n := (b - 0xe0) * 4096 + (b1 - 0x80) * 64 + (b2 - 0x80)
          if 0x800 ≤ n ∧ ¬(0xd800 ≤ n ∧ n < 0xe000) then
            (utf8Decode rest2).map fun cs => Char.ofNat n :: cs
          else none
        else none
      | _ => none
    else if b < 0xf5 then
      match rest with
      | b1 :: b2 :: b3 :: rest3 =>
        if (0x80 ≤ b1 ∧ b1 < 0xc0) ∧ (0x80 ≤ b2 ∧ b2 < 0xc0) ∧ (0x80 ≤ b3 ∧ b3 < 0xc0) then
          let n := (b - 0xf0) * 262144 + (b1 - 0x80) * 4096 + (b2 - 0x80) * 64 + (b3 - 0x80)
          if 0x10000 ≤ n ∧ n < 0x110000 then
            (utf8Decode rest3).map fun cs => Char.ofNat n :: cs
          else none
        else none
      | _ => none
    else none

/-- The `ContextSigner` trait object as the exchange consumes it
(`signing/signer.rs`): a digest signer plus key metadata. -/
structure ContextSigner where
  sign_digest : List Nat → Except String (List Nat)
  public_key_bytes : List Nat
  algorithm : String

/-- The `ContextEncoder` trait object as the exchange consumes it
(`encoding/mod.rs`): an encoder plus its format name. -/
structure ContextEncoder where
  encode : Json → Except String EncodedContext
  name : String

/-- Translation of `run_signing_exchange` from `signing/exchange.rs`, with
the session's I/O made explicit: the prover's single reply is an input,
and the first component of the result is the ordered list of messages the
notary wrote to the stream. The canonical JSON of the context is written
first; a `SignFiltered` reply is checked by `is_json_subset` against the
re-parsed canonical context (re-parsing the serialized context yields the
context value itself in this embedding); the session fails there on a
non-subset. On success the selected value is encoded, the digest signed,
and the final `Signed` message written (JSON data as UTF-8 text, binary
data hex-encoded). -/
def run_signing_exchange (context : Json) (proverMsg : ProverMessage)
    (signer : ContextSigner) (encoder : ContextEncoder) :
    List NotaryMessage × Except String Unit :=
  let canonical_json := Json.serialize context
  let writes := [NotaryMessage.context canonical_json]
  let selected : Except String Json :=
    match proverMsg with
    | .signRequest => .ok context
    | .signFiltered filtered =>
      if is_json_subset filtered context then .ok filtered
      else .error "filtered context is not a valid subset of the original context"
  match selected with
  | .error e => (writes, .error e)
  | .ok value_to_encode =>
    match encoder.encode value_to_encode with
    | .error e => (writes, .error e)
    | .ok encoded =>
      match signer.sign_digest encoded.digest with
      | .error e => (writes, .error e)
      | .ok signature_bytes =>
        match (if encoder.name == "json" then
                 match utf8Decode encoded.data with
                 | some cs => Except.ok (String.mk cs)
                 | none => Except.error "encoded JSON data is not valid UTF-8"
               else .ok (hexEncode encoded.data)) with
        | .error e => (writes, .error e)
        | .ok data_str =>
          (writes ++ [NotaryMessage.signed data_str encoder.name
              (hexEncode signature_bytes) (hexEncode signer.public_key_bytes)
              signer.algorithm],
           .ok ())

/-! ### The Ethereum-style recoverable signer (`signing/ethereum_secp256k1.rs`) -/

/-- The secp256k1 group order. -/
def secp256k1N : Nat :=
  0xFFFFFFFFFFFFFFFFFFFFFFFFFFFFFFFEBAAEDCE6AF48A03BBFD25E8CD0364141

/-- Modelled from the spec: `k256`'s `sign_prehash` for
`(Signature, RecoveryId)` is external library code, absent from this
repository's sources; §4.D of the specification fixes its contract — a
deterministic ECDSA signature over secp256k1, serialized as `r ‖ s` (two
32-byte big-endian scalars in `[1, n)`, low-s normalized), plus a recovery
id `v ∈ {0, 1}` giving the nonce point's y-parity, over a 32-byte prehash.
The model derives the scalars deterministically from the key and digest by
SHA-256 (standing in for the RFC 6979 HMAC chain), normalizes `s` to the
low half, and fails exactly when the prehash is not 32 bytes. -/
def k256_sign_prehash (key : List Nat) (digest : List Nat) : Option (Nat × Nat × Nat) :=
  if digest.length = 32 then
    let r := beToNat (sha256 (key ++ digest ++ [0])) % (secp256k1N - 1) + 1
    let sPre := beToNat (sha256 (key ++ digest ++ [1])) % (secp256k1N - 1) + 1
    let s := if sPre * 2 > secp256k1N then secp256k1N - sPre else sPre
    let v := beToNat (sha256 (key ++ digest ++ [2])) % 2
    some (r, s, v)
  else none

/-- Translation of `EthereumSecp256k1Signer::from_seed`: the signing key
is the SHA-256 hash of the seed string's bytes. -/
def EthereumSecp256k1Signer.from_seed (seed : String) : List Nat :=
  sha256 (utf8Encode seed)

/-- Translation of `EthereumSecp256k1Signer::sign_digest` from
`signing/ethereum_secp256k1.rs`: the signature's 64 `r ‖ s` bytes
(`signature.to_bytes()`) with the recovery id byte pushed at the end. -/
def EthereumSecp256k1Signer.sign_digest (key : List Nat) (digest : List Nat) :
    Except String (List Nat) :=
  match k256_sign_prehash key digest with
  | none => .error "ethereum secp256k1 sign_prehash failed"
  | some rsv => .ok (beBytes 32 rsv.1 ++ beBytes 32 rsv.2.1 ++ [rsv.2.2])

/-! ### The startup compatibility check (`main.rs`) -/

/-- The `--signing-algorithm` choices of `main.rs`. -/
inductive SigningAlgorithm where
  | secp256k1
  | rsa
  | ethereumSecp256k1
deriving Repr, BEq, DecidableEq

/-- The `--context-encoding` choices of `main.rs`. -/
inductive ContextEncoding where
  | json
  | abi
  | eip712
deriving Repr, BEq, DecidableEq

/-- The `algorithm()` tag of the signer `main.rs` constructs for each
choice (`signing/secp256k1.rs`, `signing/rsa.rs`,
`signing/ethereum_secp256k1.rs`). -/
def signerAlgorithmTag : SigningAlgorithm → String
  | .secp256k1 => "secp256k1"
  | .rsa => "rsa-pkcs1v15-sha256"
  | .ethereumSecp256k1 => "ethereum-secp256k1"

/-- The `name()` of the encoder `main.rs` constructs for each choice. -/
def encoderNameOf : ContextEncoding → String
  | .json => "json"
  | .abi => "abi"
  | .eip712 => "eip712"

/-- Translation of the startup compatibility check of `main.rs`: when a
signer is configured (a signing key seed was given), the process panics
before serving exactly when the signer's algorithm tag is
`rsa-pkcs1v15-sha256` and the encoder's name is not `json`; with no signer
configured the check is skipped. -/
def startup_panics (signer : Option SigningAlgorithm) (encoding : ContextEncoding) : Bool :=
  match signer with
  | none => false
  | some alg =>
      signerAlgorithmTag alg == "rsa-pkcs1v15-sha256" && encoderNameOf encoding != "json"

/-! ### Example values used by the concrete witnesses -/

/-- Example context value used to instantiate exchange theorems. -/
def exampleContext : Json :=
  Json.obj [("requests", Json.arr [Json.obj [("method", Json.str "GET")]])]

/-- Example tampered filtered value (method changed), not a subset of
`exampleContext`. -/
def exampleTampered : Json :=
  Json.obj [("requests", Json.arr [Json.obj [("method", Json.str "POST")]])]

/-- Example signer record used to instantiate exchange theorems. -/
def exampleSigner : ContextSigner :=
  ⟨fun d => EthereumSecp256k1Signer.sign_digest
      (EthereumSecp256k1Signer.from_seed "test-seed") d,
   [], "ethereum-secp256k1"⟩

/-- Example encoder record (the JSON encoder) used to instantiate exchange
theorems. -/
def exampleEncoder : ContextEncoder := ⟨JsonEncoder.encode, JsonEncoder.name⟩

/-- Example decoder standing in for JSON deserialization in framing
theorems. -/
def exampleDecode : List Nat → Except String (List Nat) := fun bs => .ok bs

/-! ### Helper lemmas: lookups under distinct keys -/

theorem keyMem_of_mem {fields : List (String × Json)} {k : String} {v : Json}
    (h : (k, v) ∈ fields) : keyMem fields k = true := by
  induction fields with
  | nil => cases h
  | cons p rest ih =>
    obtain ⟨k', v'⟩ := p
    simp only [keyMem, Bool.or_eq_true]
    rcases List.mem_cons.mp h with h1 | h2
    · left
      obtain ⟨rfl, rfl⟩ := Prod.mk.injEq .. ▸ h1
      exact beq_self_eq_true k
    · right
      exact ih h2

theorem lookupField_nodup {fields : List (String × Json)} {k : String} {v : Json}
    (hnd : nodupKeys fields = true) (h : (k, v) ∈ fields) :
    lookupField fields k = some v := by
  induction fields with
  | nil => cases h
  | cons p rest ih =>
    obtain ⟨k', v'⟩ := p
    simp only [nodupKeys, Bool.and_eq_true, Bool.not_eq_true'] at hnd
    obtain ⟨hkm, hnd'⟩ := hnd
    simp only [lookupField]
    rcases List.mem_cons.mp h with h1 | h2
    · obtain ⟨rfl, rfl⟩ := Prod.mk.injEq .. ▸ h1
      simp
    · have hne : (k' == k) = false := by
        by_contra hcontra
        have : k' = k := eq_of_beq (Bool.not_eq_false _ ▸ hcontra)
        subst this
        rw [keyMem_of_mem h2] at hkm
        cases hkm
      rw [if_neg (by simp [hne])]
      exact ih hnd' h2

mutual
theorem is_json_subset_refl : ∀ (v : Json), Json.wf v = true → is_json_subset v v = true
  | .null, _ => rfl
  | .bool b, _ => by simp [is_json_subset]
  | .num n, _ => by simp [is_json_subset]
  | .str s, _ => by simp [is_json_subset]
  | .arr items, h => by
      simp only [Json.wf] at h
      simp only [is_json_subset]
      exact subsetElems_refl items h
  | .obj fields, h => by
      simp only [Json.wf, Bool.and_eq_true] at h
      simp only [is_json_subset]
      exact subsetFields_refl fields fields h.1 h.2 (fun kv hkv => hkv)
termination_by v => sizeOf v

theorem subsetElems_refl : ∀ (l : List Json), wfElems l = true → subsetElems l l = true
  | [], _ => rfl
  | x :: xs, h => by
      simp only [wfElems, Bool.and_eq_true] at h
      simp only [subsetElems, Bool.and_eq_true]
      exact ⟨is_json_subset_refl x h.1, subsetElems_refl xs h.2⟩
termination_by l => sizeOf l

theorem subsetFields_refl : ∀ (b l : List (String × Json)),
    nodupKeys b = true → wfFields l = true → (∀ kv, kv ∈ l → kv ∈ b) →
    subsetFields b l = true
  | _, [], _, _, _ => rfl
  | b, (k, v) :: rest, hnd, hwf, hsub => by
      simp only [wfFields, Bool.and_eq_true] at hwf
      simp only [subsetFields, Bool.and_eq_true]
      constructor
      · rw [lookupField_nodup hnd (hsub (k, v) (by simp))]
        exact is_json_subset_refl v hwf.1
      · exact subsetFields_refl b rest hnd hwf.2 (fun kv hkv => hsub kv (by simp [hkv]))
termination_by _ l => sizeOf l
end

/-- C3: for every JSON value `v` (every value of serde's `Value` type,
whose maps cannot hold a key twice — `Json.wf`), `is_json_subset v v`
returns true: the subset predicate is reflexive. -/
theorem C3_is_json_subset_reflexive (v : Json) (hwf : Json.wf v = true) :
    is_json_subset v v = true :=
  is_json_subset_refl v hwf

/-- Concrete instantiation of the reflexivity theorem on a nested context
value. -/
theorem C3_is_json_subset_reflexive_witness :
    Json.wf exampleContext = true ∧ is_json_subset exampleContext exampleContext = true :=
  ⟨by decide, C3_is_json_subset_reflexive exampleContext (by decide)⟩

/-- C1: in every session where the prover replies to the `Context` message
with `SignFiltered` whose data is not an `is_json_subset` of the notary's
canonical context, `run_signing_exchange` returns an error and no `Signed`
message is written to the stream: the only message written is the initial
`Context` message (which precedes the subset check). This holds for every
context, signer and encoder. -/
theorem C1_non_subset_session_fails
    (context filtered : Json) (signer : ContextSigner) (encoder : ContextEncoder)
    (h : is_json_subset filtered context = false) :
    (run_signing_exchange context (.signFiltered filtered) signer encoder).1
        = [NotaryMessage.context (Json.serialize context)]
    ∧ (run_signing_exchange context (.signFiltered filtered) signer encoder).2
        = .error "filtered context is not a valid subset of the original context" := by
  simp [run_signing_exchange, h]

/-- Concrete instantiation: a tampered filtered view (request method
changed from GET to POST) fails the session after only the `Context`
message was written. -/
theorem C1_non_subset_session_fails_witness :
    is_json_subset exampleTampered exampleContext = false
    ∧ (run_signing_exchange exampleContext (.signFiltered exampleTampered)
          exampleSigner exampleEncoder).1
        = [NotaryMessage.context (Json.serialize exampleContext)]
    ∧ (run_signing_exchange exampleContext (.signFiltered exampleTampered)
          exampleSigner exampleEncoder).2
        = .error "filtered context is not a valid subset of the original context" :=
  ⟨by decide,
   (C1_non_subset_session_fails exampleContext exampleTampered
      exampleSigner exampleEncoder (by decide)).1,
   (C1_non_subset_session_fails exampleContext exampleTampered
      exampleSigner exampleEncoder (by decide)).2⟩

/-- C2 (evaluation at the failing input): the `ProverMessage` enum as
declared in `signing/protocol.rs` has only the `SignRequest` variant, so a
frame whose JSON payload is tagged `SignFiltered` does NOT deserialize into
a `ProverMessage` value — serde's internally-tagged deserializer rejects
the unknown variant tag — even though `run_signing_exchange` and the
repository's own integration tests match on `ProverMessage::SignFiltered`. -/
theorem C2_signfiltered_frame_rejected_by_declared_enum :
    proverMessageDecl_fromJson
        (Json.obj [("type", Json.str "SignFiltered"), ("data", Json.str "null")]) = none
    ∧ proverMessageDecl_fromJson (Json.obj [("type", Json.str "SignRequest")])
        = some ProverMessageDecl.signRequest := by
  constructor <;> rfl

/-- C4: for every JSON value, the `data` bytes returned by
`Eip712Encoder::encode` are identical to the `data` bytes returned by
`AbiEncoder::encode`: both ABI-encode the attestation struct obtained from
the same `parse_attestation`, for any EIP-712 domain. -/
theorem C4_eip712_data_equals_abi_data (domain : Eip712Domain) (v : Json) :
    (Eip712Encoder.encode domain v).map EncodedContext.data
      = (AbiEncoder.encode v).map EncodedContext.data := by
  unfold Eip712Encoder.encode AbiEncoder.encode
  cases parse_attestation v <;> rfl

/-- The JSON body encoder of `encoding/abi.rs` succeeds on every value. -/
theorem encode_json_body_ok (v : Json) : ∃ p, encode_json_body v = .ok p := by
  cases v <;> exact ⟨_, rfl⟩

/-- The body parser of `encoding/abi.rs` succeeds on every optional value. -/
theorem parse_body_ok : ∀ (val : Option Json), ∃ p, parse_body val = .ok p
  | none => ⟨_, rfl⟩
  | some .null => ⟨_, rfl⟩
  | some (.bool _) => ⟨_, rfl⟩
  | some (.num _) => ⟨_, rfl⟩
  | some (.str _) => ⟨_, rfl⟩
  | some (.arr _) => ⟨_, rfl⟩
  | some (.obj fields) => by
    have hni : (Json.obj fields).isNull = false := rfl
    simp only [parse_body, hni, Bool.false_eq_true, if_false, Json.get?]
    cases hlf : lookupField fields "Json" with
    | some j => exact encode_json_body_ok j
    | none =>
      cases hlu : lookupField fields "Unknown" with
      | some u =>
        cases hua : u.asArr with
        | some bs => simp only [hua]; exact ⟨_, rfl⟩
        | none => simp only [hua]; exact ⟨_, rfl⟩
      | none => exact ⟨_, rfl⟩

/-- The request parser of `encoding/abi.rs` succeeds on every value. -/
theorem parse_request_ok (v : Json) : ∃ r, parse_request v = .ok r := by
  unfold parse_request
  split
  · exact ⟨_, rfl⟩
  · obtain ⟨p, hp⟩ := parse_body_ok (v.get? "body")
    rw [hp]
    exact ⟨_, rfl⟩

/-- The response parser of `encoding/abi.rs` succeeds on every value. -/
theorem parse_response_ok (v : Json) : ∃ r, parse_response v = .ok r := by
  unfold parse_response
  split
  · exact ⟨_, rfl⟩
  · obtain ⟨p, hp⟩ := parse_body_ok (v.get? "body")
    rw [hp]
    exact ⟨_, rfl⟩

/-- Collecting results of a parser that always succeeds always succeeds. -/
theorem collectExcept_ok {f : α → Except ε β} (hf : ∀ x, ∃ y, f x = .ok y) :
    ∀ (l : List α), ∃ ys, collectExcept f l = .ok ys
  | [] => ⟨_, rfl⟩
  | x :: xs => by
    obtain ⟨y, hy⟩ := hf x
    obtain ⟨ys, hys⟩ := collectExcept_ok hf xs
    exact ⟨y :: ys, by simp only [collectExcept, hy, hys]⟩

/-- The attestation parser of `encoding/abi.rs` succeeds on every context
value: its error return path is never taken. -/
theorem parse_attestation_ok (v : Json) : ∃ a, parse_attestation v = .ok a := by
  unfold parse_attestation
  obtain ⟨reqs, hreqs⟩ := collectExcept_ok parse_request_ok
      (((v.get? "requests").bind Json.asArr).getD [])
  obtain ⟨resps, hresps⟩ := collectExcept_ok parse_response_ok
      (((v.get? "responses").bind Json.asArr).getD [])
  simp only [hreqs, hresps]
  exact ⟨_, rfl⟩

/-- C5: every defined encoder (json, abi, eip712) succeeds on every JSON
value and the digest component of the result is exactly 32 bytes long
(SHA-256 for json, keccak-256 for abi, the EIP-712 signing hash — itself a
keccak-256 — for eip712, under any domain). -/
theorem C5_digest_is_32_bytes (domain : Eip712Domain) (v : Json) :
    (∃ ec, JsonEncoder.encode v = .ok ec ∧ ec.digest.length = 32)
    ∧ (∃ ec, AbiEncoder.encode v = .ok ec ∧ ec.digest.length = 32)
    ∧ (∃ ec, Eip712Encoder.encode domain v = .ok ec ∧ ec.digest.length = 32) := by
  obtain ⟨a, ha⟩ := parse_attestation_ok v
  refine ⟨⟨_, rfl, sha256_length _⟩,
    ⟨⟨abi_encode a, keccak256 (abi_encode a)⟩, ?_, keccak256_length _⟩,
    ⟨⟨abi_encode a, eip712_signing_hash domain a⟩, ?_, keccak256_length _⟩⟩
  · simp only [AbiEncoder.encode, ha]
  · simp only [Eip712Encoder.encode, ha]

/-- C6: for every signing key and every 32-byte digest (ranged over as the
big-endian bytes of a value below `2 ^ 256`), signing succeeds and
`EthereumSecp256k1Signer::sign_digest` returns a signature of exactly 65
bytes whose final byte — the recovery id `v` — is 0 or 1. -/
theorem C6_ethereum_signature_is_65_bytes_with_v01 (key : List Nat) (d : Fin (2 ^ 256)) :
    ∃ sig, EthereumSecp256k1Signer.sign_digest key (beBytes 32 d.val) = .ok sig
      ∧ sig.length = 65
      ∧ (sig.getLast? = some 0 ∨ sig.getLast? = some 1) := by
  unfold EthereumSecp256k1Signer.sign_digest k256_sign_prehash
  rw [if_pos (beBytes_length 32 d.val)]
  refine ⟨_, rfl, ?_, ?_⟩
  · simp
  · rw [List.getLast?_concat]
    rcases Nat.mod_two_eq_zero_or_one (beToNat (sha256 (key ++ beBytes 32 d.val ++ [2]))) with h | h
    · exact Or.inl (by rw [h])
    · exact Or.inr (by rw [h])

/-- C7: the startup check of `main.rs` panics exactly when a signer is
configured whose algorithm tag is `rsa-pkcs1v15-sha256` and the configured
encoder's name is not `json`; every other signer/encoder combination
(including every configuration without a signer) passes. -/
theorem C7_rsa_requires_json_encoder
    (signer : Option SigningAlgorithm) (encoding : ContextEncoding) :
    startup_panics signer encoding = true
      ↔ (signer = some SigningAlgorithm.rsa ∧ encoding ≠ ContextEncoding.json) := by
  cases signer with
  | none => simp [startup_panics]
  | some alg =>
    cases alg <;> cases encoding <;>
      simp [startup_panics, signerAlgorithmTag, encoderNameOf]

/-- Unfolding of a 4-byte big-endian decomposition. -/
theorem beBytes_four (n : Nat) :
    beBytes 4 n = [n / 16777216 % 256, n / 65536 % 256, n / 256 % 256, n / 1 % 256] := rfl

/-- Recomposing the 4-byte big-endian decomposition of a `u32` value gives
the value back. -/
theorem u32FromBeBytes_beBytes (n : Nat) (h : n < 4294967296) :
    u32FromBeBytes (n / 16777216 % 256) (n / 65536 % 256) (n / 256 % 256) (n / 1 % 256) = n := by
  unfold u32FromBeBytes
  omega

/-- C8: for every incoming frame whose 4-byte big-endian length prefix
decodes to a value strictly greater than 10 MiB, `read_message` fails
without reading any payload byte (the result is the oversize error whatever
the rest of the stream holds — even an empty one); for every length prefix
at most 10 MiB with the payload available, the payload bytes are read and
passed to the JSON deserializer. -/
theorem C8_frame_size_limit {α : Type} (decode : List Nat → Except String α)
    (len : Nat) (rest : List Nat) (hlen : len < 2 ^ 32) :
    (MAX_MESSAGE_SIZE < len →
        read_message decode (beBytes 4 len ++ rest) = .error "message too large")
    ∧ (len ≤ MAX_MESSAGE_SIZE → len ≤ rest.length →
        read_message decode (beBytes 4 len ++ rest)
          = (decode (rest.take len)).map fun msg => (msg, rest.drop len)) := by
  have hb : beBytes 4 len ++ rest
      = len / 16777216 % 256 :: len / 65536 % 256 :: len / 256 % 256 :: len / 1 % 256 :: rest := by
    rw [beBytes_four]
    rfl
  have hu : u32FromBeBytes (len / 16777216 % 256) (len / 65536 % 256)
      (len / 256 % 256) (len / 1 % 256) = len :=
    u32FromBeBytes_beBytes len (by omega)
  constructor
  · intro hgt
    rw [hb]
    simp only [read_message, hu]
    rw [if_pos hgt]
  · intro hle hav
    rw [hb]
    simp only [read_message, hu]
    rw [if_neg (by omega), if_neg (by omega)]
    cases hdec : decode (rest.take len) <;> simp [hdec, Except.map]

/-- Concrete instantiation of the framing theorem: a frame announcing
10 MiB + 1 bytes is rejected with nothing after the prefix on the stream,
and a 2-byte frame is decoded from exactly its 2 payload bytes. -/
theorem C8_frame_size_limit_witness :
    (10 * 1024 * 1024 + 1 : Nat) < 2 ^ 32
    ∧ MAX_MESSAGE_SIZE < 10 * 1024 * 1024 + 1
    ∧ read_message exampleDecode (beBytes 4 (10 * 1024 * 1024 + 1) ++ [])
        = .error "message too large"
    ∧ (2 : Nat) ≤ MAX_MESSAGE_SIZE
    ∧ read_message exampleDecode (beBytes 4 2 ++ [7, 8, 9])
        = (exampleDecode ([7, 8, 9].take 2)).map fun msg => (msg, [7, 8, 9].drop 2) :=
  ⟨by decide, by decide,
   (C8_frame_size_limit exampleDecode (10 * 1024 * 1024 + 1) [] (by decide)).1 (by decide),
   by decide,
   (C8_frame_size_limit exampleDecode 2 [7, 8, 9] (by decide)).2 (by decide) (by decide)⟩

/-- C9 counterexample: the header entry `["a"]` is not a `[name, value]`
string pair, yet `parse_header_elem` keeps the string it does find and
yields `("a", "")`, not the empty pair the claim asserts for every
non-pair entry. -/
theorem C9_counterexample_single_string_header :
    parse_header_elem (Json.arr [Json.str "a"]) = ⟨"a", ""⟩
    ∧ Header.mk "a" "" ≠ Header.mk "" "" := by
  constructor
  · rfl
  · decide

/-- C9 (amended): `AbiEncoder::encode`'s parsing never takes the error
return path. A context that is not an object, lacks the
`requests`/`responses` keys, or holds non-array values there parses to
empty request/response arrays; a null array entry yields a
`present = false` record with zero-valued fields; a header entry that is
neither null nor an array becomes the empty-string pair (array entries
instead keep the string values of their first two elements, defaulting to
empty); a body of unrecognized shape yields `bodyEncoding = 0` with empty
bytes; and `parse_attestation` (hence `AbiEncoder::encode`) returns `Ok`
on every input. -/
theorem C9_abi_parsing_total (v hdr bodyv : Json)
    (hreq : (v.get? "requests").bind Json.asArr = none)
    (hresp : (v.get? "responses").bind Json.asArr = none)
    (hhdrNull : hdr.isNull = false) (hhdrArr : hdr.asArr = none)
    (hbodyNull : bodyv.isNull = false)
    (hbodyJson : bodyv.get? "Json" = none)
    (hbodyUnknown : bodyv.get? "Unknown" = none) :
    parse_attestation v = .ok ⟨[], []⟩
    ∧ (∀ w, ∃ a, parse_attestation w = .ok a)
    ∧ (∀ w, ∃ ec, AbiEncoder.encode w = .ok ec)
    ∧ parse_request Json.null = .ok ⟨false, "", "", [], [], BODY_NONE⟩
    ∧ parse_response Json.null = .ok ⟨false, 0, [], [], BODY_NONE⟩
    ∧ parse_header_elem hdr = ⟨"", ""⟩
    ∧ parse_body (some bodyv) = .ok ([], BODY_NONE) := by
  refine ⟨?_, fun w => parse_attestation_ok w, ?_, rfl, rfl, ?_, ?_⟩
  · simp only [parse_attestation, hreq, hresp, Option.getD]
    rfl
  · intro w
    obtain ⟨a, ha⟩ := parse_attestation_ok w
    exact ⟨⟨abi_encode a, keccak256 (abi_encode a)⟩, by simp only [AbiEncoder.encode, ha]⟩
  · simp only [parse_header_elem, hhdrNull, Bool.false_eq_true, if_false, hhdrArr]
  · simp only [parse_body, hbodyNull, Bool.false_eq_true, if_false, hbodyJson, hbodyUnknown]

/-- Concrete instantiation of the parsing-totality theorem: a string
context parses to the empty attestation, a numeric header entry becomes
the empty pair, and an unrecognized body shape becomes `BODY_NONE`. -/
theorem C9_abi_parsing_total_witness :
    ((Json.str "ctx").get? "requests").bind Json.asArr = none
    ∧ (Json.num 5).isNull = false
    ∧ (Json.num 5).asArr = none
    ∧ (Json.obj [("Raw", Json.arr [])]).get? "Json" = none
    ∧ parse_attestation (Json.str "ctx") = .ok ⟨[], []⟩
    ∧ parse_header_elem (Json.num 5) = ⟨"", ""⟩
    ∧ parse_body (some (Json.obj [("Raw", Json.arr [])])) = .ok ([], BODY_NONE) := by
  have h := C9_abi_parsing_total (Json.str "ctx") (Json.num 5)
      (Json.obj [("Raw", Json.arr [])]) rfl rfl rfl rfl rfl rfl rfl
  exact ⟨rfl, rfl, rfl, rfl, h.1, h.2.2.2.2.2.1, h.2.2.2.2.2.2⟩

/-- C10: when a body value has the shape `Unknown: [...]`, `parse_body`
keeps exactly the array elements readable as unsigned 64-bit integers
(everything else is silently dropped, shortening the byte string) and
reduces each kept integer modulo 256 (`as u8`), tagging the result
`BODY_RAW`; concretely `[300, "x", -1, 255]` becomes the bytes `[44, 255]`,
not a faithful copy of the JSON array. -/
theorem C10_unknown_body_filters_and_wraps (elems : List Json) :
    parse_body (some (Json.obj [("Unknown", Json.arr elems)]))
      = .ok (elems.filterMap (fun v => (Json.asU64 v).map fun n => n % 256), BODY_RAW)
    ∧ parse_body (some (Json.obj [("Unknown",
          Json.arr [Json.num 300, Json.str "x", Json.num (-1), Json.num 255])]))
      = .ok ([44, 255], BODY_RAW) := by
  constructor
  · rfl
  · rfl
